import Mathlib

/-!
Shallow embedding of the buildlua AST (src/src/ast.rs).

Every type below is translated constructor-for-constructor from the Rust
source: `Box<T>` indirection becomes plain `T`, `Vec<T>` becomes `List T`,
`Option<T>` becomes `Option T`, `f64` becomes `Float`, `String` stays
`String`. Constructor and field names follow the source, with a trailing
underscore where the Rust name is a Lean keyword.
-/

namespace Ast

/-- `pub struct Label(pub String)`. -/
structure Label where
  val : String
deriving DecidableEq

/-- `pub struct NameList(pub String, pub Option<Vec<String>>)`. -/
structure NameList where
  first : String
  rest : Option (List String)
deriving DecidableEq

/-- `pub struct FunctionName { first_dot_access, rest_dot_access, self_name }`. -/
structure FunctionName where
  first_dot_access : String
  rest_dot_access : Option (List String)
  self_name : Option String
deriving DecidableEq

/-- `pub enum BinaryOperation`: the binary operator tags, in source order. -/
inductive BinaryOperation where
  | Plus
  | Minus
  | Times
  | Devide
  | Exponent
  | Modulo
  | Concatanate
  | LessThan
  | LessThanOrEqual
  | GreaterThan
  | GreaterThanOrEqual
  | Equal
  | NotEqual
  | And
  | Or
deriving DecidableEq, Fintype

/-- `pub enum UnaryOperation`: the unary operator tags, in source order. -/
inductive UnaryOperation where
  | Negate
  | Not
  | Length
deriving DecidableEq, Fintype

/-- `pub enum ParameterList`: three closed shapes of formal-parameter lists. -/
inductive ParameterList where
  | NameList : NameList → ParameterList
  | ExtendedArguments : NameList → ParameterList
  | ExtendedArgumentsVoid : ParameterList
deriving DecidableEq

set_option maxHeartbeats 3200000

mutual

/-- `pub struct Block(pub Option<Vec<Statement>>, pub Option<Box<ReturnStatement>>)`. -/
inductive Block where
  | mk : Option (List Statement) → Option ReturnStatement → Block

/-- `pub enum Statement`, constructor-for-constructor from the source. -/
inductive Statement where
  | Semicolon : Statement
  | Assignment : VariableList → ExpressionList → Statement
  | FunctionCall : FunctionCall → Statement
  | Label : Label → Statement
  | Break : Statement
  | Goto : Label → Statement
  | Do : Block → Statement
  | While (exp : Expression) (do_ : Block) : Statement
  | Repeat (block : Block) (until_ : Expression) : Statement
  | If (condition : Expression) (then_ : Block)
       (elseif_condition : Option Expression) (elsethen : Option Block)
       (else_ : Block) : Statement
  | ForStepping (name : String) (from_ : Expression) (to_ : Expression)
       (step : Option Expression) (block : Block) : Statement
  | ForIn (name_list : NameList) (in_ : ExpressionList) (do_ : Block) : Statement
  | Function : FunctionName → FunctionBody → Statement
  | LocalFunction (name : String) (body : FunctionBody) : Statement
  | LocalVariableBinding : NameList → Option ExpressionList → Statement

/-- `pub struct ReturnStatement(pub Box<ExpressionList>)`. -/
inductive ReturnStatement where
  | mk : ExpressionList → ReturnStatement

/-- `pub struct VariableList { first: Box<Variable>, rest: Option<Vec<Variable>> }`. -/
inductive VariableList where
  | mk (first : Variable) (rest : Option (List Variable)) : VariableList

/-- `pub enum Variable`: name, array access, dot access. -/
inductive Variable where
  | Name : String → Variable
  | ArrayAccess (from_ : PrefixExpression) (key : Expression) : Variable
  | DotAccess (from_ : PrefixExpression) (key : String) : Variable

/-- `pub struct ExpressionList(pub Box<Expression>, pub Option<Vec<Expression>>)`. -/
inductive ExpressionList where
  | mk (first : Expression) (rest : Option (List Expression)) : ExpressionList

/-- `pub enum Expression`, constructor-for-constructor from the source.
Note that as in the source, the `BinaryOperation` variant carries only the
two operand expressions and the `UnaryOperation` variant only its operand:
neither stores an operator tag. -/
inductive Expression where
  | Nil : Expression
  | False : Expression
  | True : Expression
  | Number : Float → Expression
  | String : String → Expression
  | ExtendedArgumentAccess : Expression
  | FunctionDefine : FunctionDefine → Expression
  | PrefixExpression : PrefixExpression → Expression
  | TableConstructor : TableConstructor → Expression
  | BinaryOperation : Expression → Expression → Expression
  | UnaryOperation : Expression → Expression

/-- `pub enum PrefixExpression`. -/
inductive PrefixExpression where
  | Variable : Variable → PrefixExpression
  | FunctionCall : FunctionCall → PrefixExpression
  | Parenthesis : Expression → PrefixExpression

/-- `pub enum FunctionCall`: static call or self-taking (method) call. -/
inductive FunctionCall where
  | Static : PrefixExpression → FunctionArguments → FunctionCall
  | SelfTaking : PrefixExpression → String → FunctionArguments → FunctionCall

/-- `pub enum FunctionArguments`: parenthesised list, table, or bare string. -/
inductive FunctionArguments where
  | Parenthesis : Option ExpressionList → FunctionArguments
  | TableConstructor : TableConstructor → FunctionArguments
  | String : String → FunctionArguments

/-- `pub struct FunctionDefine(pub Box<FunctionBody>)`. -/
inductive FunctionDefine where
  | mk : FunctionBody → FunctionDefine

/-- `pub struct FunctionBody(pub Option<Box<ParameterList>>, pub Box<Block>)`. -/
inductive FunctionBody where
  | mk : Option ParameterList → Block → FunctionBody

/-- `pub struct TableConstructor(pub Box<FieldList>)`. -/
inductive TableConstructor where
  | mk : FieldList → TableConstructor

/-- `pub struct FieldList(pub Box<Field>, pub Option<Vec<Field>>)`. -/
inductive FieldList where
  | mk (first : Field) (rest : Option (List Field)) : FieldList

/-- `pub enum Field`: computed-key, named-key, or positional table field. -/
inductive Field where
  | ExpressionForName (name : Expression) (equals : Expression) : Field
  | Equals (name : String) (equals : Expression) : Field
  | ArrayStyle : Expression → Field

end

/-- `pub struct Chunk(pub Block)`: the AST root. -/
structure Chunk where
  block : Block

/-! Observation functions on the embedded AST. -/

/-- Number of elements in an optional tail list (`Option<Vec<_>>`). -/
def optLen {α : Type} : Option (List α) → Nat
  | none => 0
  | some l => l.length

/-- Element count of a `VariableList`: the required head plus the optional rest. -/
def VariableList.len : VariableList → Nat
  | .mk _ rest => 1 + optLen rest

/-- Element count of a `NameList`: the required head plus the optional rest. -/
def NameList.len (n : NameList) : Nat := 1 + optLen n.rest

/-- Element count of an `ExpressionList`: the required head plus the optional rest. -/
def ExpressionList.len : ExpressionList → Nat
  | .mk _ rest => 1 + optLen rest

/-- Element count of a `FieldList`: the required head plus the optional rest. -/
def FieldList.len : FieldList → Nat
  | .mk _ rest => 1 + optLen rest

/-- Number of result expressions a `ReturnStatement` carries. -/
def ReturnStatement.numExprs : ReturnStatement → Nat
  | .mk el => el.len

/-- Constructor index of an `Expression`, in source declaration order. -/
def exprTag : Expression → Nat
  | .Nil => 0
  | .False => 1
  | .True => 2
  | .Number _ => 3
  | .String _ => 4
  | .ExtendedArgumentAccess => 5
  | .FunctionDefine _ => 6
  | .PrefixExpression _ => 7
  | .TableConstructor _ => 8
  | .BinaryOperation _ _ => 9
  | .UnaryOperation _ => 10

/-- Constructor index of a `Statement`, in source declaration order. -/
def stmtTag : Statement → Nat
  | .Semicolon => 0
  | .Assignment _ _ => 1
  | .FunctionCall _ => 2
  | .Label _ => 3
  | .Break => 4
  | .Goto _ => 5
  | .Do _ => 6
  | .While _ _ => 7
  | .Repeat _ _ => 8
  | .If _ _ _ _ _ => 9
  | .ForStepping _ _ _ _ _ => 10
  | .ForIn _ _ _ => 11
  | .Function _ _ => 12
  | .LocalFunction _ _ => 13
  | .LocalVariableBinding _ _ => 14

/-- The operand pair of a binary-operation expression; the `Expression`
variant stores nothing else, exactly as in the source. -/
def Expression.binOperands : Expression → Option (Expression × Expression)
  | .BinaryOperation a b => some (a, b)
  | _ => none

/-- The operand of a unary-operation expression; the `Expression` variant
stores nothing else, exactly as in the source. -/
def Expression.unOperand : Expression → Option Expression
  | .UnaryOperation a => some a
  | _ => none

/-- Whether a statement is an `If`. -/
def Statement.isIf : Statement → Bool
  | .If _ _ _ _ _ => true
  | _ => false

/-- The `else_` block of an `If` statement (a non-optional field in the source). -/
def Statement.elseBlock : Statement → Option Block
  | .If _ _ _ _ e => some e
  | _ => none

/-- The elseif conditions an `If` statement stores (the single optional
`elseif_condition` field, as a list). -/
def Statement.elseifConditions : Statement → List Expression
  | .If _ _ ec _ _ => ec.toList
  | _ => []

/-- Target count and value count of an `Assignment` statement. -/
def Statement.assignArity : Statement → Option (Nat × Nat)
  | .Assignment vl el => some (vl.len, el.len)
  | _ => none

/-- The elements of a `Block` in order: its statements, then its optional
trailing return statement. -/
def Block.items : Block → List (Statement ⊕ ReturnStatement)
  | .mk stmts ret =>
      (match stmts with
        | none => []
        | some l => l.map Sum.inl) ++
      (match ret with
        | none => []
        | some r => [Sum.inr r])

/-- Checks that nothing at all follows a return statement in a block's
element list. -/
def afterReturnEmpty : List (Statement ⊕ ReturnStatement) → Bool
  | [] => true
  | Sum.inl _ :: rest => afterReturnEmpty rest
  | Sum.inr _ :: rest => rest.isEmpty

/-- Per-statement extractor returning the name of a `Label` statement. -/
def labelOf : Statement → List String
  | .Label l => [l.val]
  | _ => []

/-- Per-statement extractor returning the target name of a `Goto` statement. -/
def gotoOf : Statement → List String
  | .Goto l => [l.val]
  | _ => []

mutual

/-- Collect `f` over a statement and every statement nested anywhere below it. -/
def stmtCollect (f : Statement → List String) : Statement → List String
  | .Semicolon => f .Semicolon
  | .Assignment vl el => f (.Assignment vl el) ++ varListCollect f vl ++ exprListCollect f el
  | .FunctionCall fc => f (.FunctionCall fc) ++ funCallCollect f fc
  | .Label l => f (.Label l)
  | .Break => f .Break
  | .Goto l => f (.Goto l)
  | .Do b => f (.Do b) ++ blockCollect f b
  | .While e b => f (.While e b) ++ exprCollect f e ++ blockCollect f b
  | .Repeat b e => f (.Repeat b e) ++ blockCollect f b ++ exprCollect f e
  | .If c t ec et e =>
      f (.If c t ec et e) ++ exprCollect f c ++ blockCollect f t ++
        optExprCollect f ec ++ optBlockCollect f et ++ blockCollect f e
  | .ForStepping n fr hi st b =>
      f (.ForStepping n fr hi st b) ++ exprCollect f fr ++ exprCollect f hi ++
        optExprCollect f st ++ blockCollect f b
  | .ForIn nl i d => f (.ForIn nl i d) ++ exprListCollect f i ++ blockCollect f d
  | .Function fn fb => f (.Function fn fb) ++ funBodyCollect f fb
  | .LocalFunction n fb => f (.LocalFunction n fb) ++ funBodyCollect f fb
  | .LocalVariableBinding nl oel => f (.LocalVariableBinding nl oel) ++ optExprListCollect f oel

/-- Collect `f` over every statement of a statement list. -/
def stmtListCollect (f : Statement → List String) : List Statement → List String
  | [] => []
  | s :: rest => stmtCollect f s ++ stmtListCollect f rest

/-- Collect `f` over every statement of a block, its return statement included. -/
def blockCollect (f : Statement → List String) : Block → List String
  | .mk none none => []
  | .mk none (some r) => retCollect f r
  | .mk (some l) none => stmtListCollect f l
  | .mk (some l) (some r) => stmtListCollect f l ++ retCollect f r

/-- Collect `f` over the expressions of a return statement. -/
def retCollect (f : Statement → List String) : ReturnStatement → List String
  | .mk el => exprListCollect f el

/-- Collect `f` below every variable of a variable list. -/
def varListCollect (f : Statement → List String) : VariableList → List String
  | .mk first none => varCollect f first
  | .mk first (some rest) => varCollect f first ++ varRestCollect f rest

/-- Collect `f` below every variable of a plain list of variables. -/
def varRestCollect (f : Statement → List String) : List Variable → List String
  | [] => []
  | v :: rest => varCollect f v ++ varRestCollect f rest

/-- Collect `f` below a variable. -/
def varCollect (f : Statement → List String) : Variable → List String
  | .Name _ => []
  | .ArrayAccess fr k => prefixCollect f fr ++ exprCollect f k
  | .DotAccess fr _ => prefixCollect f fr

/-- Collect `f` below every expression of an expression list. -/
def exprListCollect (f : Statement → List String) : ExpressionList → List String
  | .mk first none => exprCollect f first
  | .mk first (some rest) => exprCollect f first ++ exprRestCollect f rest

/-- Collect `f` below every expression of a plain list of expressions. -/
def exprRestCollect (f : Statement → List String) : List Expression → List String
  | [] => []
  | e :: rest => exprCollect f e ++ exprRestCollect f rest

/-- Collect `f` below an optional expression. -/
def optExprCollect (f : Statement → List String) : Option Expression → List String
  | none => []
  | some e => exprCollect f e

/-- Collect `f` over an optional block. -/
def optBlockCollect (f : Statement → List String) : Option Block → List String
  | none => []
  | some b => blockCollect f b

/-- Collect `f` below an optional expression list. -/
def optExprListCollect (f : Statement → List String) : Option ExpressionList → List String
  | none => []
  | some el => exprListCollect f el

/-- Collect `f` below an expression. -/
def exprCollect (f : Statement → List String) : Expression → List String
  | .Nil => []
  | .False => []
  | .True => []
  | .Number _ => []
  | .String _ => []
  | .ExtendedArgumentAccess => []
  | .FunctionDefine fd => funDefineCollect f fd
  | .PrefixExpression p => prefixCollect f p
  | .TableConstructor t => tableCollect f t
  | .BinaryOperation a b => exprCollect f a ++ exprCollect f b
  | .UnaryOperation a => exprCollect f a

/-- Collect `f` below a prefix expression. -/
def prefixCollect (f : Statement → List String) : PrefixExpression → List String
  | .Variable v => varCollect f v
  | .FunctionCall fc => funCallCollect f fc
  | .Parenthesis e => exprCollect f e

/-- Collect `f` below a function call. -/
def funCallCollect (f : Statement → List String) : FunctionCall → List String
  | .Static p a => prefixCollect f p ++ funArgsCollect f a
  | .SelfTaking p _ a => prefixCollect f p ++ funArgsCollect f a

/-- Collect `f` below call arguments. -/
def funArgsCollect (f : Statement → List String) : FunctionArguments → List String
  | .Parenthesis oel => optExprListCollect f oel
  | .TableConstructor t => tableCollect f t
  | .String _ => []

/-- Collect `f` below a function definition expression. -/
def funDefineCollect (f : Statement → List String) : FunctionDefine → List String
  | .mk fb => funBodyCollect f fb

/-- Collect `f` over the body block of a function. -/
def funBodyCollect (f : Statement → List String) : FunctionBody → List String
  | .mk _ b => blockCollect f b

/-- Collect `f` below a table constructor. -/
def tableCollect (f : Statement → List String) : TableConstructor → List String
  | .mk fl => fieldListCollect f fl

/-- Collect `f` below every field of a field list. -/
def fieldListCollect (f : Statement → List String) : FieldList → List String
  | .mk first none => fieldCollect f first
  | .mk first (some rest) => fieldCollect f first ++ fieldRestCollect f rest

/-- Collect `f` below every field of a plain list of fields. -/
def fieldRestCollect (f : Statement → List String) : List Field → List String
  | [] => []
  | fd :: rest => fieldCollect f fd ++ fieldRestCollect f rest

/-- Collect `f` below a table field. -/
def fieldCollect (f : Statement → List String) : Field → List String
  | .ExpressionForName n e => exprCollect f n ++ exprCollect f e
  | .Equals _ e => exprCollect f e
  | .ArrayStyle e => exprCollect f e

end

/-- Collect `f` over every statement anywhere in a chunk. -/
def chunkCollect (f : Statement → List String) (c : Chunk) : List String :=
  blockCollect f c.block

/-! Theorems about the embedded AST. -/

/-- Helper: prepending statement elements preserves `afterReturnEmpty`. -/
theorem afterReturnEmpty_append_inl (l : List Statement)
    (t : List (Statement ⊕ ReturnStatement)) (h : afterReturnEmpty t = true) :
    afterReturnEmpty (l.map Sum.inl ++ t) = true := by
  induction l with
  | nil => simpa using h
  | cons s rest ih => simpa [afterReturnEmpty] using ih

/-- C1: the source stores no operator tag in the binary- and unary-operation
expression variants, so a binary-operation node is fully determined by its
operand pair and a unary-operation node by its single operand — there is no
room for the operator the claim says every such node carries. The encodings
of distinct-operator sources such as `1 + 2` and `1 * 2` therefore coincide. -/
theorem C1_operand_determines_operation_node :
    (∀ e₁ e₂ : Expression, ∀ p : Expression × Expression,
        Expression.binOperands e₁ = some p → Expression.binOperands e₂ = some p → e₁ = e₂) ∧
    (∀ e₁ e₂ a : Expression,
        Expression.unOperand e₁ = some a → Expression.unOperand e₂ = some a → e₁ = e₂) := by
  constructor
  · intro e₁ e₂ p h₁ h₂
    obtain ⟨x, y⟩ := p
    cases e₁ <;> simp [Expression.binOperands] at h₁
    cases e₂ <;> simp [Expression.binOperands] at h₂
    simp_all
  · intro e₁ e₂ a h₁ h₂
    cases e₁ <;> simp [Expression.unOperand] at h₁
    cases e₂ <;> simp [Expression.unOperand] at h₂
    simp_all

/-- C1 witness: the theorem applied to the concrete node that encodes both
the Lua source `nil + true` and any other binary operation on the same
operands. -/
theorem C1_operand_determines_operation_node_witness :
    Expression.BinaryOperation Expression.Nil Expression.True =
      Expression.BinaryOperation Expression.Nil Expression.True ∧
    Expression.UnaryOperation Expression.Nil = Expression.UnaryOperation Expression.Nil :=
  ⟨C1_operand_determines_operation_node.1
      (Expression.BinaryOperation Expression.Nil Expression.True)
      (Expression.BinaryOperation Expression.Nil Expression.True)
      (Expression.Nil, Expression.True) rfl rfl,
    C1_operand_determines_operation_node.2
      (Expression.UnaryOperation Expression.Nil)
      (Expression.UnaryOperation Expression.Nil)
      Expression.Nil rfl rfl⟩

/-- C2 counterexample: `Expression` does not have only 10 variants — the
11th constructor in source order, `UnaryOperation`, has index 10, so not
every expression has constructor index below 10. -/
theorem C2_ten_variant_count_refuted : ¬ ∀ e : Expression, exprTag e < 10 :=
  fun h => absurd (h (.UnaryOperation .Nil)) (by decide)

/-- C2 (amended): `Expression` is a closed sum of exactly 11 variants —
five literals (Nil, False, True, Number, String), the vararg marker, a
function definition, a prefix-expression wrapper, a table constructor, a
binary operation, and a unary operation: every expression has constructor
index below 11 and all 11 indices are attained. -/
theorem C2_expression_has_eleven_variants :
    (∀ e : Expression, exprTag e < 11) ∧
    (∀ k : Nat, k < 11 → ∃ e : Expression, exprTag e = k) := by
  constructor
  · intro e; cases e <;> simp [exprTag]
  · intro k hk
    interval_cases k
    · exact ⟨.Nil, rfl⟩
    · exact ⟨.False, rfl⟩
    · exact ⟨.True, rfl⟩
    · exact ⟨.Number 0, rfl⟩
    · exact ⟨.String "", rfl⟩
    · exact ⟨.ExtendedArgumentAccess, rfl⟩
    · exact ⟨.FunctionDefine (.mk (.mk none (.mk none none))), rfl⟩
    · exact ⟨.PrefixExpression (.Variable (.Name "x")), rfl⟩
    · exact ⟨.TableConstructor (.mk (.mk (.ArrayStyle .Nil) none)), rfl⟩
    · exact ⟨.BinaryOperation .Nil .Nil, rfl⟩
    · exact ⟨.UnaryOperation .Nil, rfl⟩

/-- C2 witness: the amended theorem applied at the concrete index 10. -/
theorem C2_expression_has_eleven_variants_witness :
    (10 < 11) ∧ ∃ e : Expression, exprTag e = 10 :=
  ⟨by decide, C2_expression_has_eleven_variants.2 10 (by decide)⟩

/-- C3 counterexample: `BinaryOperation` does not have 14 members. -/
theorem C3_fourteen_member_count_refuted : Fintype.card BinaryOperation ≠ 14 := by
  decide

/-- C3 (amended): `BinaryOperation` and `UnaryOperation` are closed
enumerations with exactly 15 and exactly 3 values respectively; having
exactly as many values as constructors, every member is a bare tag with no
payload. -/
theorem C3_operator_enum_cardinalities :
    Fintype.card BinaryOperation = 15 ∧ Fintype.card UnaryOperation = 3 := by
  constructor <;> decide

/-- C4: every `If` statement carries a non-optional `else_` block, and
stores at most one elseif condition, so a chain of two or more elseif
clauses is not representable. -/
theorem C4_if_else_present_and_single_elseif :
    (∀ s : Statement, s.isIf = true → (s.elseBlock).isSome = true) ∧
    (∀ s : Statement, s.elseifConditions.length ≤ 1) := by
  constructor
  · intro s h
    cases s <;> simp_all [Statement.isIf, Statement.elseBlock]
  · intro s
    cases s <;> simp [Statement.elseifConditions]
    rename_i ec _ _
    cases ec <;> simp

/-- C4 witness: the theorem applied to a concrete `If` statement. -/
theorem C4_if_else_present_and_single_elseif_witness :
    (Statement.isIf
        (Statement.If Expression.Nil (Block.mk none none) none none (Block.mk none none))
      = true) ∧
    (Option.isSome (Statement.elseBlock
        (Statement.If Expression.Nil (Block.mk none none) none none (Block.mk none none)))
      = true) :=
  ⟨rfl, C4_if_else_present_and_single_elseif.1
      (Statement.If Expression.Nil (Block.mk none none) none none (Block.mk none none)) rfl⟩

/-- C5: `VariableList`, `NameList`, `ExpressionList` and `FieldList` all
have one required head element plus an optional rest, so each always holds
at least one element and an empty list of any of the four types is
unconstructable. -/
theorem C5_list_types_nonempty :
    (∀ v : VariableList, 1 ≤ v.len) ∧ (∀ n : NameList, 1 ≤ n.len) ∧
    (∀ e : ExpressionList, 1 ≤ e.len) ∧ (∀ fl : FieldList, 1 ≤ fl.len) := by
  refine ⟨fun v => ?_, fun n => ?_, fun e => ?_, fun fl => ?_⟩
  · cases v with
    | mk first rest => exact Nat.le_add_right 1 _
  · exact Nat.le_add_right 1 _
  · cases e with
    | mk first rest => exact Nat.le_add_right 1 _
  · cases fl with
    | mk first rest => exact Nat.le_add_right 1 _

/-- C6: in every block's element sequence nothing at all follows a return
statement — the return lives in a separate trailing field, so a block with
a statement after its return cannot be built. -/
theorem C6_no_statement_after_return :
    ∀ b : Block, afterReturnEmpty b.items = true := by
  intro b
  cases b with
  | mk stmts ret =>
    cases stmts with
    | none => cases ret <;> simp [Block.items, afterReturnEmpty, List.isEmpty]
    | some l =>
      cases ret with
      | none =>
        simpa [Block.items] using
          afterReturnEmpty_append_inl l [] (by simp [afterReturnEmpty])
      | some r =>
        simpa [Block.items] using
          afterReturnEmpty_append_inl l [Sum.inr r] (by simp [afterReturnEmpty, List.isEmpty])

/-- C7 counterexample: no `ReturnStatement` carries an empty expression
list — its `ExpressionList` always has a required head expression. -/
theorem C7_empty_return_list_refuted :
    ¬ ∃ r : ReturnStatement, r.numExprs = 0 := by
  rintro ⟨⟨⟨first, rest⟩⟩, h⟩
  simp [ReturnStatement.numExprs, ExpressionList.len] at h

/-- C7 (amended): every `ReturnStatement` carries at least one result
expression; a bare `return` with zero result expressions is not
representable. -/
theorem C7_return_list_always_nonempty :
    ∀ r : ReturnStatement, 1 ≤ r.numExprs := by
  rintro ⟨⟨first, rest⟩⟩
  exact Nat.le_add_right 1 _

/-- C8: `Statement` is a closed 15-way choice — every statement has
constructor index below 15 and all 15 indices, in the source order
Semicolon, Assignment, FunctionCall, Label, Break, Goto, Do, While, Repeat,
If, ForStepping, ForIn, Function, LocalFunction, LocalVariableBinding, are
attained. -/
theorem C8_statement_fifteen_variants :
    (∀ s : Statement, stmtTag s < 15) ∧
    (∀ k : Nat, k < 15 → ∃ s : Statement, stmtTag s = k) := by
  constructor
  · intro s; cases s <;> simp [stmtTag]
  · intro k hk
    interval_cases k
    · exact ⟨.Semicolon, rfl⟩
    · exact ⟨.Assignment (.mk (.Name "x") none) (.mk .Nil none), rfl⟩
    · exact ⟨.FunctionCall (.Static (.Variable (.Name "f")) (.Parenthesis none)), rfl⟩
    · exact ⟨.Label ⟨"l"⟩, rfl⟩
    · exact ⟨.Break, rfl⟩
    · exact ⟨.Goto ⟨"l"⟩, rfl⟩
    · exact ⟨.Do (.mk none none), rfl⟩
    · exact ⟨.While .Nil (.mk none none), rfl⟩
    · exact ⟨.Repeat (.mk none none) .Nil, rfl⟩
    · exact ⟨.If .Nil (.mk none none) none none (.mk none none), rfl⟩
    · exact ⟨.ForStepping "i" .Nil .Nil none (.mk none none), rfl⟩
    · exact ⟨.ForIn ⟨"i", none⟩ (.mk .Nil none) (.mk none none), rfl⟩
    · exact ⟨.Function ⟨"f", none, none⟩ (.mk none (.mk none none)), rfl⟩
    · exact ⟨.LocalFunction "f" (.mk none (.mk none none)), rfl⟩
    · exact ⟨.LocalVariableBinding ⟨"x", none⟩ none, rfl⟩

/-- C8 witness: the theorem applied at the concrete index 14. -/
theorem C8_statement_fifteen_variants_witness :
    (14 < 15) ∧ ∃ s : Statement, stmtTag s = 14 :=
  ⟨by decide, C8_statement_fifteen_variants.2 14 (by decide)⟩

/-- C9: the `Assignment` shape does not link target arity to value arity —
for every m ≥ 1 and n ≥ 1 an assignment with m target variables and n value
expressions is constructible. -/
theorem C9_assignment_arity_independent :
    ∀ m n : Nat, 1 ≤ m → 1 ≤ n →
      ∃ s : Statement, s.assignArity = some (m, n) := by
  intro m n hm hn
  refine ⟨Statement.Assignment
    (VariableList.mk (Variable.Name "x") (some (List.replicate (m - 1) (Variable.Name "x"))))
    (ExpressionList.mk Expression.Nil (some (List.replicate (n - 1) Expression.Nil))), ?_⟩
  simp [Statement.assignArity, VariableList.len, ExpressionList.len, optLen]
  omega

/-- C9 witness: the theorem applied at 2 targets and 3 values. -/
theorem C9_assignment_arity_independent_witness :
    (1 ≤ 2) ∧ (1 ≤ 3) ∧ ∃ s : Statement, s.assignArity = some (2, 3) :=
  ⟨by decide, by decide, C9_assignment_arity_independent 2 3 (by decide) (by decide)⟩

/-- C10: for every string s there is a chunk that contains a `Goto`
targeting s and no `Label` statement anywhere in the tree, so unresolved
goto targets are representable. -/
theorem C10_goto_needs_no_matching_label :
    ∀ s : String, ∃ c : Chunk,
      chunkCollect labelOf c = [] ∧ chunkCollect gotoOf c = [s] := by
  intro s
  refine ⟨⟨Block.mk (some [Statement.Goto ⟨s⟩]) none⟩, ?_, ?_⟩ <;>
    simp [chunkCollect, blockCollect, stmtListCollect, stmtCollect, labelOf, gotoOf]

end Ast
